import Mathlib

/-!
Shallow embedding of bittrance/swarm-deployer (src/main.rs, src/events.rs,
src/sqs.rs) for checking the natural-language specification against the code.

Conventions used throughout:
* JSON values (serde_json::Value) are modelled by the inductive `Json`;
  serde maps are association lists with unique keys, looked up by
  `List.lookup`.
* A raw message body string is modelled by its parse result
  `Option Json`: `none` stands for text that is not a JSON document.
* Rust panics (`panic!`, `expect`, `unwrap`, out-of-bounds indexing) are
  rendered as the `Except.error` case of the embedded function, carrying
  the panic message where the source has one.
* Machine integers are `Nat`/`Int`; the one cast that can overflow
  (`u64 as isize` in `update_spec`) is made explicit in `u64_as_isize`,
  assuming the 64-bit platform the program targets.
-/

/-- Model of serde_json::Value. Objects are association lists with unique
keys (serde keeps the last duplicate; concrete inputs here have none). -/
inductive Json where
  | null
  | bool (b : Bool)
  | num (n : Int)
  | str (s : String)
  | arr (elems : List Json)
  | obj (fields : List (String × Json))

/-- serde_json::Value::as_str. -/
def Json.asStr : Json → Option String
  | .str s => some s
  | _ => none

/-- serde_json::Value::as_object, as the underlying association list. -/
def Json.asObj : Json → Option (List (String × Json))
  | .obj fields => some fields
  | _ => none

/-- events.rs: the Event struct (the spec calls it PushEvent). -/
structure Event where
  account_id : String
  region : String
  repository_name : String
  image_digest : String
  image_tag : String

/-- events.rs: Event::image (the spec calls it canonical_reference). -/
def Event.image (e : Event) : String :=
  e.account_id ++ ".dkr.ecr." ++ e.region ++ ".amazonaws.com/" ++
    e.repository_name ++ ":" ++ e.image_tag

/-- events.rs: extract_string_value. Panics (here: errors) when the field
is absent or not a string. -/
def extract_string_value (object : List (String × Json)) (field : String) :
    Except String String :=
  match List.lookup field object with
  | none => .error ("event to contain " ++ field)
  | some v =>
    match v.asStr with
    | none => .error (field ++ " to be a string")
    | some s => .ok s

/-- events.rs: parse_ecr_event. The input is the parse result of the body
text (`none` = not JSON). `serde_json::from_str::<Map<_,_>>` also fails on
any non-object document, hence the `asObj` error case. Note the source
applies the `?` operator to `detail.get("action-type")` and
`detail.get("result")`, so a missing action-type or result field
early-returns `None` (ok none here) instead of aborting. -/
def parse_ecr_event (event_str : Option Json) : Except String (Option Event) :=
  match event_str with
  | none => .error "event to be json"
  | some doc =>
    match doc.asObj with
    | none => .error "event to be json"
    | some parsed =>
      match List.lookup "detail" parsed with
      | none => .error "event to contain detail object"
      | some dv =>
        match dv.asObj with
        | none => .error "a detail object"
        | some detail =>
          match List.lookup "action-type" detail with
          | none => .ok none
          | some av =>
            if av.asStr = some "PUSH" then
              match List.lookup "result" detail with
              | none => .ok none
              | some rv =>
                if rv.asStr = some "SUCCESS" then
                  match extract_string_value parsed "account" with
                  | .error e => .error e
                  | .ok account_id =>
                    match extract_string_value parsed "region" with
                    | .error e => .error e
                    | .ok region =>
                      match extract_string_value detail "repository-name" with
                      | .error e => .error e
                      | .ok repository_name =>
                        match extract_string_value detail "image-digest" with
                        | .error e => .error e
                        | .ok image_digest =>
                          match extract_string_value detail "image-tag" with
                          | .error e => .error e
                          | .ok image_tag =>
                            .ok (some ⟨account_id, region, repository_name,
                                  image_digest, image_tag⟩)
                else .ok none
            else .ok none

/-- bollard: ContainerSpec (the fields the program can reach; payloads it
never inspects are kept as opaque strings). -/
structure ContainerSpec where
  image : Option String
  labels : List (String × String)
  command : List String
  args : List String
  env : List String
  mounts : List String

/-- bollard: TaskSpec. `force_update` is `Option<isize>` in the source. -/
structure TaskSpec where
  container_spec : Option ContainerSpec
  force_update : Option Int
  resources : Option String
  restart_policy : Option String
  placement : Option String
  networks : List String
  log_driver : Option String

/-- bollard: ServiceSpec. `labels` is a map with unique keys, modelled as
an association list looked up by `List.lookup`. -/
structure ServiceSpec where
  name : Option String
  labels : List (String × String)
  task_template : TaskSpec
  mode : Option String
  update_config : Option String
  rollback_config : Option String
  networks : List String
  endpoint_spec : Option String

/-- bollard: ObjectVersion. `index` is a u64 (so meaningful values are
below 2 ^ 64). -/
structure ObjectVersion where
  index : Nat

/-- bollard: Service<String> (the fields the program reads). -/
structure Service where
  id : String
  version : ObjectVersion
  spec : ServiceSpec

/-- main.rs: STACK_IMAGE_LABEL. -/
def STACK_IMAGE_LABEL : String := "com.docker.stack.image"

/-- main.rs: extract_service_image. The label value is used verbatim; the
declared image is truncated at the byte position of its first `@`
(`image.find` / `String::truncate`), which for a string is exactly the
prefix of characters before the first `@`. -/
def extract_service_image (service : Service) : Option String :=
  match List.lookup STACK_IMAGE_LABEL service.spec.labels with
  | some image => some image
  | none =>
    match service.spec.task_template.container_spec with
    | none => none
    | some spec =>
      spec.image.map (fun image => ⟨image.data.takeWhile (fun c => c != '@')⟩)

/-- main.rs: the label-filter predicate inside build_service_index
(`opt.filter_label` is the only field of Opt the function reads). -/
def passes_filter (filter_label : Option (String × String)) (service : Service) :
    Bool :=
  match filter_label with
  | some (key, value) =>
    ((List.lookup key service.spec.labels).filter (fun v => v == value)).isSome
  | none => true

/-- main.rs: the `.map(|service| (extract_service_image(&service).unwrap(), service))`
pass of build_service_index, as a recursion over the filtered listing.
`none` models the `unwrap` panic on a service with no resolvable image. -/
def collect_index : List Service → Option (List (String × Service))
  | [] => some []
  | service :: rest =>
    match extract_service_image service with
    | none => none
    | some image => (collect_index rest).map (fun l => (image, service) :: l)

/-- main.rs: build_service_index. The HashMap it collects into is kept as
the association list of insertions in listing order (on duplicate keys the
HashMap keeps the last insertion; no claim here depends on that).
`Except.error` models the process panic from the `unwrap`. -/
def build_service_index (services : List Service)
    (filter_label : Option (String × String)) :
    Except Unit (List (String × Service)) :=
  match collect_index (services.filter (passes_filter filter_label)) with
  | none => .error ()
  | some pairs => .ok pairs

/-- The `as isize` cast applied to a u64 on the 64-bit platforms the
program targets: values of 2 ^ 63 and above wrap to negative. -/
def u64_as_isize (n : Nat) : Int :=
  if n < 2 ^ 63 then (n : Int) else (n : Int) - 2 ^ 64

/-- main.rs: update_spec (the spec calls it UpdatePlanner.plan). -/
def update_spec (service : Service) (event : Event) : ServiceSpec :=
  let spec := service.spec
  { spec with
    task_template :=
      { spec.task_template with
        force_update := some (u64_as_isize service.version.index)
        container_spec :=
          spec.task_template.container_spec.map (fun cspec =>
            { cspec with
              image := some (event.image ++ "@" ++ event.image_digest) }) } }

/-- Erases exactly the two fields update_spec writes (the container image
and the forced-redeploy marker); equality of `scrub_plan` of two specs
says they agree on every other field. -/
def scrub_plan (spec : ServiceSpec) : ServiceSpec :=
  { spec with
    task_template :=
      { spec.task_template with
        force_update := none
        container_spec :=
          spec.task_template.container_spec.map (fun cspec =>
            { cspec with image := none }) } }

/-- base64 crate: value of one standard-alphabet symbol. -/
def b64_char_value (c : Char) : Option Nat :=
  if 'A' ≤ c ∧ c ≤ 'Z' then some (c.toNat - 'A'.toNat)
  else if 'a' ≤ c ∧ c ≤ 'z' then some (c.toNat - 'a'.toNat + 26)
  else if '0' ≤ c ∧ c ≤ '9' then some (c.toNat - '0'.toNat + 52)
  else if c = '+' then some 62
  else if c = '/' then some 63
  else none

/-- base64 crate: reassemble 6-bit values into bytes (a final group of two
or three symbols yields one or two bytes). -/
def sextets_to_bytes : List Nat → List Nat
  | a :: b :: c :: d :: rest =>
    (a * 4 + b / 16) :: ((b % 16) * 16 + c / 4) :: ((c % 4) * 64 + d) ::
      sextets_to_bytes rest
  | [a, b] => [a * 4 + b / 16]
  | [a, b, c] => [a * 4 + b / 16, (b % 16) * 16 + c / 4]
  | _ => []

/-- base64 crate: the trailing-bits check (InvalidLastSymbol): the unused
low bits of the last symbol of a short final group must be zero. -/
def last_group_canonical (vals : List Nat) : Bool :=
  match vals.length % 4 with
  | 2 => (vals.getLastD 0) % 16 == 0
  | 3 => (vals.getLastD 0) % 4 == 0
  | _ => true

/-- base64 crate: `base64::decode` with the STANDARD configuration, on the
bytes of the token string (ASCII symbols, so characters). Padding is
optional but, when present, must complete a 4-aligned final group; a data
length of 1 mod 4 is invalid (InvalidLength); any symbol outside the
alphabet is invalid (InvalidByte). -/
def base64_decode (s : List Char) : Option (List Nat) :=
  let pads := (s.reverse.takeWhile (fun c => c == '=')).length
  let data := s.take (s.length - pads)
  if 2 < pads then none
  else if 0 < pads ∧ s.length % 4 ≠ 0 then none
  else
    match data.mapM b64_char_value with
    | none => none
    | some vals =>
      if vals.length % 4 == 1 then none
      else if last_group_canonical vals then some (sextets_to_bytes vals)
      else none

/-- RFC 3629 UTF-8: consume one well-formed encoded scalar value from the
front of a byte list, returning the remainder. -/
def utf8_cont (b : Nat) : Bool := 128 ≤ b && b < 192

def utf8_step : List Nat → Option (List Nat)
  | [] => none
  | b :: rest =>
    if b < 128 then some rest
    else if 194 ≤ b && b ≤ 223 then
      match rest with
      | c :: r => if utf8_cont c then some r else none
      | [] => none
    else if b == 224 then
      match rest with
      | c :: d :: r =>
        if (160 ≤ c && c ≤ 191) && utf8_cont d then some r else none
      | _ => none
    else if (225 ≤ b && b ≤ 236) || b == 238 || b == 239 then
      match rest with
      | c :: d :: r => if utf8_cont c && utf8_cont d then some r else none
      | _ => none
    else if b == 237 then
      match rest with
      | c :: d :: r =>
        if (128 ≤ c && c ≤ 159) && utf8_cont d then some r else none
      | _ => none
    else if b == 240 then
      match rest with
      | c :: d :: e :: r =>
        if (144 ≤ c && c ≤ 191) && utf8_cont d && utf8_cont e then some r
        else none
      | _ => none
    else if 241 ≤ b && b ≤ 243 then
      match rest with
      | c :: d :: e :: r =>
        if utf8_cont c && utf8_cont d && utf8_cont e then some r else none
      | _ => none
    else if b == 244 then
      match rest with
      | c :: d :: e :: r =>
        if (128 ≤ c && c ≤ 143) && utf8_cont d && utf8_cont e then some r
        else none
      | _ => none
    else none

def utf8_valid_aux : Nat → List Nat → Bool
  | _, [] => true
  | 0, _ :: _ => false
  | fuel + 1, l =>
    match utf8_step l with
    | none => false
    | some rest => utf8_valid_aux fuel rest

/-- String::from_utf8 succeeds exactly on valid UTF-8 byte sequences;
each step consumes at least one byte, so the length is enough fuel. -/
def utf8_valid (l : List Nat) : Bool := utf8_valid_aux l.length l

/-- bollard: DockerCredentials (the two fields the program fills). The
username and password are kept as the byte lists of the decoded string;
splitting the string on `:` is splitting its UTF-8 bytes on byte 58,
since no ASCII byte occurs inside a multi-byte UTF-8 sequence. -/
structure DockerCredentials where
  username : Option (List Nat)
  password : Option (List Nat)

/-- The spec name for the failure of credential decoding (the source
panics; the panic is rendered as this error). -/
inductive CredentialError where
  | malformedCredential

/-- `splitn(2, sep)` when the separator occurs: the part before the first
occurrence and everything after it. `none` when the separator is absent
(in which case `splitn` yields a single part and `parts[1]` is an
out-of-bounds panic in the source). -/
def split_at_first (sep : Nat) : List Nat → Option (List Nat × List Nat)
  | [] => none
  | b :: rest =>
    if b = sep then some ([], rest)
    else (split_at_first sep rest).map (fun p => (b :: p.1, p.2))

/-- main.rs: docker_credentials_from_auth_token (the spec calls it
CredentialCodec.decode). Base64 failure and UTF-8 failure are the two
`panic!` calls; a decoded string without a colon panics indexing
`parts[1]`. All three are rendered as MalformedCredentialError. -/
def docker_credentials_from_auth_token (auth_token : List Char) :
    Except CredentialError DockerCredentials :=
  match base64_decode auth_token with
  | none => .error .malformedCredential
  | some bytes =>
    if utf8_valid bytes then
      match split_at_first 58 bytes with
      | none => .error .malformedCredential
      | some (username, password) => .ok ⟨some username, some password⟩
    else .error .malformedCredential

/-- rusoto_sqs::Message (the two fields the program reads). The body text
is modelled by its parse result, as for parse_ecr_event. -/
structure Message where
  body : Option (Option Json)
  receipt_handle : Option String

/-- The external calls process_one can issue besides the queue ack:
the registry credential fetch (GetAuthorizationToken, issued for the
event account) and the orchestrator update (Docker::update_service). -/
inductive ExtCall where
  | fetchCreds (account_id : String)
  | updateService (service_id : String)

/-- How one message can fail: a panic somewhere in processing (JSON decode,
missing field, unknown region, credential decode), a failed credential
fetch (SeedyError::AuthToken), a failed update (SeedyError::UpdatingService),
or a failed queue delete (SeedyError::AckingMessage). Every case makes
`process_one` (or the delete after it) return Err, which `?` in main
propagates, aborting the loop. -/
inductive PErr where
  | panicked (msg : String)
  | authFailed
  | applyFailed (service_id : String)
  | deleteFailed

/-- Outcomes of the external collaborators, per input: whether
rusoto_core::Region::from_str knows the region string, the combined result
of ecr_auth_for_event for an account (its transport error, and the panics
inside token extraction and docker_credentials_from_auth_token, folded into
the error case, since each equally prevents the message from being acked),
whether Docker::update_service succeeds for a service, and whether
sqs::delete_message succeeds for a receipt handle. -/
structure Env where
  regionKnown : String → Bool
  auth : String → Except Unit (Option DockerCredentials)
  applyOk : String → Bool
  deleteOk : String → Bool

/-- main.rs: process_one. Returns the external calls issued (in order)
and the result main's `?` sees. The match order follows the source:
body presence, parse_ecr_event, catalog lookup, Region::from_str unwrap,
ecr_auth_for_event `?`, update_service `?`. -/
def process_one (message : Message)
    (services_by_image : List (String × Service)) (env : Env) :
    List ExtCall × Except PErr Unit :=
  match message.body with
  | none => ([], .ok ())
  | some event_str =>
    match parse_ecr_event event_str with
    | .error msg => ([], .error (.panicked msg))
    | .ok none => ([], .ok ())
    | .ok (some event) =>
      match List.lookup event.image services_by_image with
      | none => ([], .ok ())
      | some service =>
        if env.regionKnown event.region then
          match env.auth event.account_id with
          | .error _ => ([.fetchCreds event.account_id], .error .authFailed)
          | .ok _ =>
            if env.applyOk service.id then
              ([.fetchCreds event.account_id, .updateService service.id],
                .ok ())
            else
              ([.fetchCreds event.account_id, .updateService service.id],
                .error (.applyFailed service.id))
        else ([], .error (.panicked "region"))

/-- main.rs: the per-batch message loop in main:
`for message in messages.iter() { process_one(...).await?; sqs::delete_message(...).await? }`.
Returns the receipt handles acked, in order, and the error (if any) that
aborted the batch. delete_message panics (`expect("No handle")`) on a
message without a receipt handle, and can itself fail. -/
def run_batch (messages : List Message)
    (services_by_image : List (String × Service)) (env : Env) :
    List String × Option PErr :=
  match messages with
  | [] => ([], none)
  | message :: rest =>
    match (process_one message services_by_image env).2 with
    | .error e => ([], some e)
    | .ok () =>
      match message.receipt_handle with
      | none => ([], some (.panicked "No handle"))
      | some receipt =>
        if env.deleteOk receipt then
          let next := run_batch rest services_by_image env
          (receipt :: next.1, next.2)
        else ([], some .deleteFailed)

/-- Test fixture: a ContainerSpec carrying only an image. -/
def mkContainerSpec (image : Option String) : ContainerSpec :=
  ⟨image, [], [], [], [], []⟩

/-- Test fixture: a TaskSpec with no forced update yet. -/
def mkTaskSpec (cspec : Option ContainerSpec) : TaskSpec :=
  ⟨cspec, none, none, none, none, [], none⟩

/-- Test fixture: a ServiceSpec from labels and container spec. -/
def mkServiceSpec (labels : List (String × String))
    (cspec : Option ContainerSpec) : ServiceSpec :=
  ⟨none, labels, mkTaskSpec cspec, none, none, none, [], none⟩

/-- Test fixture: a Service from its interesting fields. -/
def mkService (id : String) (idx : Nat) (labels : List (String × String))
    (cspec : Option ContainerSpec) : Service :=
  ⟨id, ⟨idx⟩, mkServiceSpec labels cspec⟩

/-- A service with neither stack-image label nor declared image. -/
def svc_no_image : Service := mkService "svc-none" 1 [] none

/-- A service whose stack-image label carries a digest suffix. -/
def svc_labelled : Service :=
  mkService "svc-lab" 1
    [(STACK_IMAGE_LABEL, "bittrance/ze-image:latest@sha512:1234")] none

/-- A service with no label whose declared image carries a digest suffix. -/
def svc_declared : Service :=
  mkService "svc-dec" 1 []
    (some (mkContainerSpec (some "bittrance/ze-image:latest@sha512:1234")))

/-- The push event of the repository's own test fixture. -/
def push_event : Event :=
  ⟨"123456789012", "rp-north-1", "bittrance/ze-image", "sha256:1234", "latest"⟩

/-- The notification JSON of the repository's own test fixture. -/
def push_event_json : Json :=
  Json.obj
    [("account", Json.str "123456789012"),
     ("region", Json.str "rp-north-1"),
     ("detail", Json.obj
       [("action-type", Json.str "PUSH"),
        ("result", Json.str "SUCCESS"),
        ("repository-name", Json.str "bittrance/ze-image"),
        ("image-digest", Json.str "sha256:1234"),
        ("image-tag", Json.str "latest")])]

/-- A running service matching push_event by canonical reference. -/
def matched_service : Service :=
  mkService "srv1" 1 []
    (some (mkContainerSpec
      (some "123456789012.dkr.ecr.rp-north-1.amazonaws.com/bittrance/ze-image:latest@sha512:5678")))

/-- A service whose version index is the first value the `as isize` cast
wraps. -/
def svc_big_version : Service :=
  mkService "svc-big" (2 ^ 63) [] (some (mkContainerSpec (some "img")))

/-- Collaborator outcomes: everything succeeds. -/
def env_all_ok : Env :=
  ⟨fun _ => true, fun _ => Except.ok none, fun _ => true, fun _ => true⟩

/-- Collaborator outcomes: the credential fetch fails. -/
def env_auth_fails : Env :=
  ⟨fun _ => true, fun _ => Except.error (), fun _ => true, fun _ => true⟩

lemma collect_index_eq_none (l : List Service) (s : Service)
    (hmem : s ∈ l) (h : extract_service_image s = none) :
    collect_index l = none := by
  induction l with
  | nil => cases hmem
  | cons a rest ih =>
    unfold collect_index
    rcases List.mem_cons.mp hmem with rfl | h2
    · rw [h]
    · cases hx : extract_service_image a with
      | none => rfl
      | some img => rw [ih h2]; rfl

/-- C1 counterexample: a service passing the (absent) label filter with
neither a stack-image label nor a declared image makes build_service_index
abort (the `unwrap` in the source panics) instead of excluding the service
and returning normally. -/
theorem c1_counterexample :
    build_service_index [svc_no_image] none = Except.error () := rfl

/-- C1 (amended): if any service passing the label filter has neither a
stack-image label nor a declared image, ServiceCatalog.build does not
return a catalog at all: it aborts with an error (a panic in the source),
so the service is not silently excluded. -/
theorem c1_no_reference_aborts (services : List Service)
    (filter_label : Option (String × String)) (service : Service)
    (hmem : service ∈ services)
    (hfilt : passes_filter filter_label service = true)
    (himg : extract_service_image service = none) :
    build_service_index services filter_label = Except.error () := by
  have hmem2 : service ∈ services.filter (passes_filter filter_label) :=
    List.mem_filter.mpr ⟨hmem, hfilt⟩
  have hnone : collect_index (services.filter (passes_filter filter_label)) =
      none := collect_index_eq_none _ _ hmem2 himg
  unfold build_service_index
  rw [hnone]

/-- C1 witness: the amended theorem applied to a concrete one-service
listing. -/
theorem c1_no_reference_aborts_witness :
    build_service_index [svc_no_image, svc_labelled] none = Except.error () :=
  c1_no_reference_aborts [svc_no_image, svc_labelled] none svc_no_image
    (List.mem_cons_self _ _) rfl rfl

lemma head_dropWhile_false {α : Type} (p : α → Bool) :
    ∀ (l : List α) (c : α), (l.dropWhile p).head? = some c → p c = false := by
  intro l
  induction l with
  | nil => intro c h; simp [List.dropWhile] at h
  | cons a rest ih =>
    intro c h
    rw [List.dropWhile_cons] at h
    by_cases ha : p a
    · rw [if_pos ha] at h; exact ih c h
    · rw [if_neg ha] at h
      simp at h
      rw [← h]
      simpa using ha

lemma not_mem_takeWhile_bne {α : Type} [BEq α] [LawfulBEq α] (x : α) :
    ∀ l : List α, x ∉ l.takeWhile (fun c => c != x) := by
  intro l
  induction l with
  | nil => simp [List.takeWhile]
  | cons a rest ih =>
    rw [List.takeWhile_cons]
    by_cases ha : (a != x) = true
    · rw [if_pos ha]
      intro hmem
      rcases List.mem_cons.mp hmem with rfl | h2
      · simp at ha
      · exact ih h2
    · rw [if_neg ha]; simp

/-- C8: when the stack-image label is present its value is the canonical
reference verbatim (no digest stripping even if it holds an `@`); when it
is absent and a declared image exists, the reference is the prefix of the
declared image before its first `@` (everything from the first `@` onward
is stripped). -/
theorem c8_reference_resolution (service : Service) :
    (∀ v, List.lookup STACK_IMAGE_LABEL service.spec.labels = some v →
      extract_service_image service = some v) ∧
    (List.lookup STACK_IMAGE_LABEL service.spec.labels = none →
      ∀ cspec img, service.spec.task_template.container_spec = some cspec →
        cspec.image = some img →
        ∃ kept rest, extract_service_image service = some ⟨kept⟩ ∧
          img.data = kept ++ rest ∧ '@' ∉ kept ∧
          (∀ c, rest.head? = some c → c = '@')) := by
  constructor
  · intro v hv
    unfold extract_service_image
    rw [hv]
  · intro hlab cspec img hcs himg
    refine ⟨img.data.takeWhile (fun c => c != '@'),
      img.data.dropWhile (fun c => c != '@'), ?_, ?_, ?_, ?_⟩
    · unfold extract_service_image
      rw [hlab, hcs]
      show cspec.image.map
          (fun image => (⟨image.data.takeWhile (fun c => c != '@')⟩ : String)) =
        some ⟨img.data.takeWhile (fun c => c != '@')⟩
      rw [himg]
      rfl
    · exact (List.takeWhile_append_dropWhile _ _).symm
    · exact not_mem_takeWhile_bne '@' img.data
    · intro c hc
      have := head_dropWhile_false (fun c => c != '@') img.data c hc
      simpa using this

/-- C8 witness: the label value is kept verbatim with its digest suffix;
the declared image of an otherwise identical service is digest-stripped. -/
theorem c8_reference_resolution_witness :
    extract_service_image svc_labelled =
      some "bittrance/ze-image:latest@sha512:1234" ∧
    (∃ kept rest,
      extract_service_image svc_declared = some ⟨kept⟩ ∧
      "bittrance/ze-image:latest@sha512:1234".data = kept ++ rest ∧
      '@' ∉ kept ∧ (∀ c, rest.head? = some c → c = '@')) :=
  ⟨(c8_reference_resolution svc_labelled).1 _ rfl,
   (c8_reference_resolution svc_declared).2 rfl _ _ rfl rfl⟩

/-- C5 counterexample: for a service whose version index is 2 ^ 63 the
`u64 as isize` cast in update_spec wraps, so the forced-redeploy marker is
-(2 ^ 63), not the integer value 2 ^ 63 of the version token. -/
theorem c5_counterexample :
    (update_spec svc_big_version push_event).task_template.force_update =
      some (-(2 ^ 63 : Int)) ∧
    (-(2 ^ 63 : Int)) ≠ (((2 ^ 63 : Nat) : Int)) := by
  constructor
  · show some (u64_as_isize (2 ^ 63)) = some (-(2 ^ 63 : Int))
    unfold u64_as_isize
    norm_num
  · norm_num

/-- C5 (amended): for a service carrying a container spec, the plan's
container image is the event's canonical reference followed by `@` and the
event's digest, regardless of the previous image; the forced-redeploy
marker is the version token reduced into the signed 64-bit range, which
equals the token's integer value exactly when the token is below 2 ^ 63. -/
theorem c5_plan_fields (service : Service) (event : Event)
    (cspec : ContainerSpec)
    (hcs : service.spec.task_template.container_spec = some cspec)
    (h63 : service.version.index < 2 ^ 63) :
    (update_spec service event).task_template.container_spec =
      some { cspec with
        image := some (event.image ++ "@" ++ event.image_digest) } ∧
    (update_spec service event).task_template.force_update =
      some ((service.version.index : Nat) : Int) := by
  constructor
  · have hdef : (update_spec service event).task_template.container_spec =
        service.spec.task_template.container_spec.map (fun c =>
          { c with
            image := some (event.image ++ "@" ++ event.image_digest) }) := rfl
    rw [hdef, hcs]
    rfl
  · show some (u64_as_isize service.version.index) = _
    unfold u64_as_isize
    rw [if_pos h63]

/-- C5 witness: the amended theorem at the repository's own test event and
a matched service with version index 1 and a prior, differently-digested
image. -/
theorem c5_plan_fields_witness :
    (update_spec matched_service push_event).task_template.container_spec =
      some { mkContainerSpec
          (some "123456789012.dkr.ecr.rp-north-1.amazonaws.com/bittrance/ze-image:latest@sha512:5678")
        with
        image := some (push_event.image ++ "@" ++ push_event.image_digest) } ∧
    (update_spec matched_service push_event).task_template.force_update =
      some ((1 : Nat) : Int) :=
  c5_plan_fields matched_service push_event _ rfl (by decide)

/-- C6: the update plan agrees with the service's existing specification
on every field other than the container image and the forced-redeploy
marker: erasing exactly those two fields from both yields equal
specifications (so name, labels, mode, configs, networks, endpoint spec,
and every task and container field other than the two written ones are
unchanged). -/
theorem c6_frame (service : Service) (event : Event) :
    scrub_plan (update_spec service event) = scrub_plan service.spec ∧
    (update_spec service event).name = service.spec.name ∧
    (update_spec service event).labels = service.spec.labels ∧
    (update_spec service event).networks = service.spec.networks := by
  obtain ⟨id, ver, name, labels, ⟨cspec, fu, res, rp, pl, tnets, ld⟩,
    mode, uc, rc, nets, es⟩ := service
  cases cspec with
  | none => exact ⟨rfl, rfl, rfl, rfl⟩
  | some c => exact ⟨rfl, rfl, rfl, rfl⟩

lemma split_at_first_of_not_mem (sep : Nat) (l : List Nat) (h : sep ∉ l) :
    split_at_first sep l = none := by
  induction l with
  | nil => rfl
  | cons b rest ih =>
    unfold split_at_first
    rw [if_neg, ih (fun hm => h (List.mem_cons_of_mem _ hm))]
    · rfl
    · intro hb
      exact h (hb ▸ List.mem_cons_self _ _)

lemma split_at_first_append (sep : Nat) (u p : List Nat) (h : sep ∉ u) :
    split_at_first sep (u ++ sep :: p) = some (u, p) := by
  induction u with
  | nil => simp [split_at_first]
  | cons b rest ih =>
    have hb : b ≠ sep := fun hb => h (hb ▸ List.mem_cons_self _ _)
    have hrest : sep ∉ rest := fun hm => h (List.mem_cons_of_mem _ hm)
    show split_at_first sep (b :: (rest ++ sep :: p)) = some (b :: rest, p)
    unfold split_at_first
    rw [if_neg hb, ih hrest]
    rfl

/-- C4: CredentialCodec.decode base64-decodes the token and splits the
decoded string on the first colon only, the prefix becoming the username
and the remainder (which may itself contain colons) the password; it
fails with MalformedCredentialError (in the source, a panic) when base64
decoding fails or when the decoded string contains no colon. The decoded
string is represented by its UTF-8 bytes (colon = byte 58), and the
`String::from_utf8` validity check is the `utf8_valid` hypothesis. -/
theorem c4_credential_decoding (auth_token : List Char) :
    (base64_decode auth_token = none →
      docker_credentials_from_auth_token auth_token =
        Except.error CredentialError.malformedCredential) ∧
    (∀ bytes, base64_decode auth_token = some bytes →
      utf8_valid bytes = true → 58 ∉ bytes →
      docker_credentials_from_auth_token auth_token =
        Except.error CredentialError.malformedCredential) ∧
    (∀ bytes username password, base64_decode auth_token = some bytes →
      utf8_valid bytes = true → bytes = username ++ 58 :: password →
      58 ∉ username →
      docker_credentials_from_auth_token auth_token =
        Except.ok ⟨some username, some password⟩) := by
  refine ⟨?_, ?_, ?_⟩
  · intro hb
    unfold docker_credentials_from_auth_token
    rw [hb]
  · intro bytes hb hu hno
    have hs : split_at_first 58 bytes = none :=
      split_at_first_of_not_mem 58 bytes hno
    unfold docker_credentials_from_auth_token
    rw [hb]
    simp [hu, hs]
  · intro bytes username password hb hu hsplit hno
    have hs : split_at_first 58 bytes = some (username, password) := by
      rw [hsplit]
      exact split_at_first_append 58 username password hno
    unfold docker_credentials_from_auth_token
    rw [hb]
    simp [hu, hs]

/-- C4 witness: the token base64("foo:bar") decodes to username "foo" and
password "bar" (as UTF-8 bytes). -/
theorem c4_credential_decoding_witness :
    docker_credentials_from_auth_token "Zm9vOmJhcg==".data =
      Except.ok ⟨some [102, 111, 111], some [98, 97, 114]⟩ :=
  (c4_credential_decoding "Zm9vOmJhcg==".data).2.2
    [102, 111, 111, 58, 98, 97, 114] [102, 111, 111] [98, 97, 114]
    rfl rfl rfl (by decide)

lemma extract_string_value_eq_ok (o : List (String × Json)) (f s : String)
    (h : List.lookup f o = some (Json.str s)) :
    extract_string_value o f = Except.ok s := by
  unfold extract_string_value
  rw [h]
  rfl

lemma extract_string_value_eq_error (o : List (String × Json)) (f : String)
    (h : (List.lookup f o).bind Json.asStr = none) :
    ∃ msg, extract_string_value o f = Except.error msg := by
  unfold extract_string_value
  cases hl : List.lookup f o with
  | none => exact ⟨_, rfl⟩
  | some v =>
    rw [hl] at h
    simp [Option.bind] at h
    simp only [h]
    exact ⟨_, rfl⟩

/-- C7: a notification whose detail has action-type "PUSH" and result
"SUCCESS" and which carries all five required string fields decodes to a
PushEvent whose fields equal the input values, and whose canonical
reference is account.dkr.ecr.region.amazonaws.com/repo:tag. -/
theorem c7_decode_push_success (parsed detail : List (String × Json))
    (acc reg repo dig tag : String)
    (hdet : List.lookup "detail" parsed = some (Json.obj detail))
    (hat : List.lookup "action-type" detail = some (Json.str "PUSH"))
    (hres : List.lookup "result" detail = some (Json.str "SUCCESS"))
    (hacc : List.lookup "account" parsed = some (Json.str acc))
    (hreg : List.lookup "region" parsed = some (Json.str reg))
    (hrepo : List.lookup "repository-name" detail = some (Json.str repo))
    (hdig : List.lookup "image-digest" detail = some (Json.str dig))
    (htag : List.lookup "image-tag" detail = some (Json.str tag)) :
    parse_ecr_event (some (Json.obj parsed)) =
      Except.ok (some ⟨acc, reg, repo, dig, tag⟩) ∧
    Event.image ⟨acc, reg, repo, dig, tag⟩ =
      acc ++ ".dkr.ecr." ++ reg ++ ".amazonaws.com/" ++ repo ++ ":" ++ tag := by
  constructor
  · have h1 := extract_string_value_eq_ok parsed "account" acc hacc
    have h2 := extract_string_value_eq_ok parsed "region" reg hreg
    have h3 := extract_string_value_eq_ok detail "repository-name" repo hrepo
    have h4 := extract_string_value_eq_ok detail "image-digest" dig hdig
    have h5 := extract_string_value_eq_ok detail "image-tag" tag htag
    simp only [parse_ecr_event, Json.asObj, Json.asStr, hdet, hat, hres,
      h1, h2, h3, h4, h5, if_true]
  · rfl

/-- C7 witness: the repository's own test notification decodes to the
expected event and canonical reference. -/
theorem c7_decode_push_success_witness :
    parse_ecr_event (some push_event_json) = Except.ok (some push_event) ∧
    push_event.image =
      "123456789012" ++ ".dkr.ecr." ++ "rp-north-1" ++ ".amazonaws.com/" ++
        "bittrance/ze-image" ++ ":" ++ "latest" := by
  have h := c7_decode_push_success
    [("account", Json.str "123456789012"),
     ("region", Json.str "rp-north-1"),
     ("detail", Json.obj
       [("action-type", Json.str "PUSH"),
        ("result", Json.str "SUCCESS"),
        ("repository-name", Json.str "bittrance/ze-image"),
        ("image-digest", Json.str "sha256:1234"),
        ("image-tag", Json.str "latest")])]
    [("action-type", Json.str "PUSH"),
     ("result", Json.str "SUCCESS"),
     ("repository-name", Json.str "bittrance/ze-image"),
     ("image-digest", Json.str "sha256:1234"),
     ("image-tag", Json.str "latest")]
    "123456789012" "rp-north-1" "bittrance/ze-image" "sha256:1234" "latest"
    rfl rfl rfl rfl rfl rfl rfl rfl
  exact h

/-- C9: a notification whose detail's action-type does not read as the
string "PUSH" (absent, non-string, or different), or reads as "PUSH" while
its result does not read as "SUCCESS", decodes to the non-trigger None,
whatever the other fields hold. -/
theorem c9_non_trigger (parsed detail : List (String × Json))
    (hdet : List.lookup "detail" parsed = some (Json.obj detail))
    (h : (List.lookup "action-type" detail).bind Json.asStr ≠ some "PUSH" ∨
      ((List.lookup "action-type" detail).bind Json.asStr = some "PUSH" ∧
       (List.lookup "result" detail).bind Json.asStr ≠ some "SUCCESS")) :
    parse_ecr_event (some (Json.obj parsed)) = Except.ok none := by
  cases hat : List.lookup "action-type" detail with
  | none => simp only [parse_ecr_event, Json.asObj, hdet, hat]
  | some av =>
    rw [hat] at h
    rcases h with hne | ⟨hpush, hne2⟩
    · have hne3 : ¬ av.asStr = some "PUSH" := by simpa [Option.bind] using hne
      simp only [parse_ecr_event, Json.asObj, hdet, hat, if_neg hne3]
    · have hpush2 : av.asStr = some "PUSH" := by simpa [Option.bind] using hpush
      cases hres : List.lookup "result" detail with
      | none =>
        simp only [parse_ecr_event, Json.asObj, hdet, hat, hpush2, if_true, hres]
      | some rv =>
        rw [hres] at hne2
        have hne4 : ¬ rv.asStr = some "SUCCESS" := by
          simpa [Option.bind] using hne2
        simp only [parse_ecr_event, Json.asObj, hdet, hat, hpush2, if_true,
          hres, if_neg hne4]

/-- C9 witness: a notification whose action-type is "DELETE" yields the
non-trigger result even though every other required field is absent. -/
theorem c9_non_trigger_witness :
    parse_ecr_event (some (Json.obj
      [("detail", Json.obj [("action-type", Json.str "DELETE")])])) =
      Except.ok none :=
  c9_non_trigger [("detail", Json.obj [("action-type", Json.str "DELETE")])]
    [("action-type", Json.str "DELETE")] rfl (Or.inl (by decide))

lemma extract_string_value_ok_bind (o : List (String × Json)) (f s : String)
    (h : extract_string_value o f = Except.ok s) :
    (List.lookup f o).bind Json.asStr = some s := by
  unfold extract_string_value at h
  cases hl : List.lookup f o with
  | none => rw [hl] at h; simp at h
  | some v =>
    rw [hl] at h
    cases hv : v.asStr with
    | none => simp only [hv] at h; simp at h
    | some s2 =>
      simp only [hv] at h
      simp at h
      simp [Option.bind, hv, h]

/-- C3 counterexample: a body whose detail object is missing the required
nested action-type field decodes to the None non-trigger result, not to a
decode error (the source applies `?` to `detail.get("action-type")`),
contradicting the claim that missing required fields never yield None. -/
theorem c3_counterexample :
    parse_ecr_event (some (Json.obj [("detail", Json.obj [])])) =
      Except.ok none := rfl

/-- C3 (amended): input that does not parse as a structured object, or is
missing the top-level account or region, the detail object, or (on the
PUSH/SUCCESS path) the nested repository-name, image-digest or image-tag,
is a decode error; but a detail missing its action-type field, or carrying
action-type "PUSH" while missing its result field, yields the None
non-trigger result instead of a decode error. -/
theorem c3_decode_error_amended :
    (parse_ecr_event none = Except.error "event to be json") ∧
    (∀ doc : Json, doc.asObj = none →
      parse_ecr_event (some doc) = Except.error "event to be json") ∧
    (∀ parsed : List (String × Json), List.lookup "detail" parsed = none →
      parse_ecr_event (some (Json.obj parsed)) =
        Except.error "event to contain detail object") ∧
    (∀ (parsed : List (String × Json)) (dv : Json),
      List.lookup "detail" parsed = some dv → dv.asObj = none →
      parse_ecr_event (some (Json.obj parsed)) =
        Except.error "a detail object") ∧
    (∀ parsed detail : List (String × Json),
      List.lookup "detail" parsed = some (Json.obj detail) →
      (List.lookup "action-type" detail).bind Json.asStr = some "PUSH" →
      (List.lookup "result" detail).bind Json.asStr = some "SUCCESS" →
      ((List.lookup "account" parsed).bind Json.asStr = none ∨
       (List.lookup "region" parsed).bind Json.asStr = none ∨
       (List.lookup "repository-name" detail).bind Json.asStr = none ∨
       (List.lookup "image-digest" detail).bind Json.asStr = none ∨
       (List.lookup "image-tag" detail).bind Json.asStr = none) →
      ∃ msg, parse_ecr_event (some (Json.obj parsed)) = Except.error msg) ∧
    (∀ parsed detail : List (String × Json),
      List.lookup "detail" parsed = some (Json.obj detail) →
      List.lookup "action-type" detail = none →
      parse_ecr_event (some (Json.obj parsed)) = Except.ok none) ∧
    (∀ (parsed detail : List (String × Json)) (av : Json),
      List.lookup "detail" parsed = some (Json.obj detail) →
      List.lookup "action-type" detail = some av → av.asStr = some "PUSH" →
      List.lookup "result" detail = none →
      parse_ecr_event (some (Json.obj parsed)) = Except.ok none) := by
  refine ⟨rfl, ?_, ?_, ?_, ?_, ?_, ?_⟩
  · intro doc h
    simp only [parse_ecr_event, h]
  · intro parsed h
    simp only [parse_ecr_event, Json.asObj, h]
  · intro parsed dv h1 h2
    have hobj : (Json.obj parsed).asObj = some parsed := rfl
    simp only [parse_ecr_event, hobj, h1, h2]
  · intro parsed detail hdet hat hres hmiss
    cases hatl : List.lookup "action-type" detail with
    | none => rw [hatl] at hat; simp at hat
    | some av =>
      rw [hatl] at hat
      simp [Option.bind] at hat
      cases hresl : List.lookup "result" detail with
      | none => rw [hresl] at hres; simp at hres
      | some rv =>
        rw [hresl] at hres
        simp [Option.bind] at hres
        cases hacc : extract_string_value parsed "account" with
        | error m =>
          exact ⟨m, by simp only [parse_ecr_event, Json.asObj, hdet, hatl,
            hat, if_true, hresl, hres, hacc]⟩
        | ok acc =>
          cases hreg : extract_string_value parsed "region" with
          | error m =>
            exact ⟨m, by simp only [parse_ecr_event, Json.asObj, hdet, hatl,
              hat, if_true, hresl, hres, hacc, hreg]⟩
          | ok reg =>
            cases hrepo : extract_string_value detail "repository-name" with
            | error m =>
              exact ⟨m, by simp only [parse_ecr_event, Json.asObj, hdet,
                hatl, hat, if_true, hresl, hres, hacc, hreg, hrepo]⟩
            | ok repo =>
              cases hdig : extract_string_value detail "image-digest" with
              | error m =>
                exact ⟨m, by simp only [parse_ecr_event, Json.asObj, hdet,
                  hatl, hat, if_true, hresl, hres, hacc, hreg, hrepo, hdig]⟩
              | ok dig =>
                cases htag : extract_string_value detail "image-tag" with
                | error m =>
                  exact ⟨m, by simp only [parse_ecr_event, Json.asObj, hdet,
                    hatl, hat, if_true, hresl, hres, hacc, hreg, hrepo, hdig,
                    htag]⟩
                | ok tag =>
                  exfalso
                  rcases hmiss with hm | hm | hm | hm | hm
                  · rw [extract_string_value_ok_bind parsed "account" acc hacc]
                      at hm
                    cases hm
                  · rw [extract_string_value_ok_bind parsed "region" reg hreg]
                      at hm
                    cases hm
                  · rw [extract_string_value_ok_bind detail "repository-name"
                      repo hrepo] at hm
                    cases hm
                  · rw [extract_string_value_ok_bind detail "image-digest"
                      dig hdig] at hm
                    cases hm
                  · rw [extract_string_value_ok_bind detail "image-tag"
                      tag htag] at hm
                    cases hm
  · intro parsed detail hdet h
    simp only [parse_ecr_event, Json.asObj, hdet, h]
  · intro parsed detail av hdet hatl hav hresl
    simp only [parse_ecr_event, Json.asObj, hdet, hatl, hav, if_true, hresl]

/-- C3 witness: the amended theorem applied to a body with no detail field
(a decode error) and to a detail missing only its result field after an
action-type of "PUSH" (the None non-trigger). -/
theorem c3_decode_error_amended_witness :
    parse_ecr_event (some (Json.obj [("account", Json.str "123456789012")])) =
      Except.error "event to contain detail object" ∧
    parse_ecr_event (some (Json.obj
      [("detail", Json.obj [("action-type", Json.str "PUSH")])])) =
      Except.ok none :=
  ⟨c3_decode_error_amended.2.2.1 [("account", Json.str "123456789012")] rfl,
   c3_decode_error_amended.2.2.2.2.2.2
     [("detail", Json.obj [("action-type", Json.str "PUSH")])]
     [("action-type", Json.str "PUSH")] (Json.str "PUSH") rfl rfl rfl rfl⟩

lemma process_one_ok_cases (message : Message) (cat : List (String × Service))
    (env : Env)
    (h : (process_one message cat env).2 = Except.ok ()) :
    message.body = none ∨
    (∃ raw, message.body = some raw ∧ parse_ecr_event raw = Except.ok none) ∨
    (∃ raw event, message.body = some raw ∧
      parse_ecr_event raw = Except.ok (some event) ∧
      List.lookup event.image cat = none) ∨
    (∃ raw event service, message.body = some raw ∧
      parse_ecr_event raw = Except.ok (some event) ∧
      List.lookup event.image cat = some service ∧
      env.regionKnown event.region = true ∧
      (∃ creds, env.auth event.account_id = Except.ok creds) ∧
      env.applyOk service.id = true) := by
  cases hb : message.body with
  | none => exact Or.inl rfl
  | some raw =>
    simp only [process_one, hb] at h
    cases hp : parse_ecr_event raw with
    | error msg => simp only [hp] at h; simp at h
    | ok oevt =>
      cases oevt with
      | none => exact Or.inr (Or.inl ⟨raw, rfl, hp⟩)
      | some event =>
        simp only [hp] at h
        cases hl : List.lookup event.image cat with
        | none => exact Or.inr (Or.inr (Or.inl ⟨raw, event, rfl, hp, hl⟩))
        | some service =>
          simp only [hl] at h
          cases hr : env.regionKnown event.region with
          | false => simp [hr] at h
          | true =>
            cases ha : env.auth event.account_id with
            | error u => simp [hr, ha] at h
            | ok creds =>
              cases happ : env.applyOk service.id with
              | false => simp [hr, ha, happ] at h
              | true =>
                exact Or.inr (Or.inr (Or.inr ⟨raw, event, service, rfl, hp,
                  hl, hr, ⟨creds, ha⟩, happ⟩))

lemma run_batch_deleted_mem (messages : List Message)
    (cat : List (String × Service)) (env : Env) (r : String) :
    r ∈ (run_batch messages cat env).1 →
    ∃ m, m ∈ messages ∧ m.receipt_handle = some r ∧
      (process_one m cat env).2 = Except.ok () := by
  induction messages with
  | nil => intro hr; simp [run_batch] at hr
  | cons m rest ih =>
    intro hr
    cases hp : (process_one m cat env).2 with
    | error e => simp only [run_batch, hp] at hr; simp at hr
    | ok u =>
      cases u
      simp only [run_batch, hp] at hr
      cases hh : m.receipt_handle with
      | none => simp only [hh] at hr; simp at hr
      | some receipt =>
        simp only [hh] at hr
        cases hd : env.deleteOk receipt with
        | false => simp [hd] at hr
        | true =>
          simp only [hd, if_true] at hr
          rcases List.mem_cons.mp hr with rfl | hr2
          · exact ⟨m, List.mem_cons_self _ _, hh, hp⟩
          · obtain ⟨m2, hm2, hrec2, hok2⟩ := ih hr2
            exact ⟨m2, List.mem_cons_of_mem _ hm2, hrec2, hok2⟩

lemma receipt_unique (messages : List Message)
    (hnd : (messages.filterMap Message.receipt_handle).Nodup)
    {m m2 : Message} (hm : m ∈ messages) (hm2 : m2 ∈ messages)
    {r : String} (h1 : m.receipt_handle = some r)
    (h2 : m2.receipt_handle = some r) : m = m2 := by
  by_contra hne
  obtain ⟨s, t, rfl⟩ := List.append_of_mem hm
  rw [List.filterMap_append] at hnd
  have hcons : List.filterMap Message.receipt_handle (m :: t) =
      r :: List.filterMap Message.receipt_handle t := by
    rw [List.filterMap_cons_some h1]
  rcases List.mem_append.mp hm2 with hs | ht
  · have hr1 : r ∈ List.filterMap Message.receipt_handle s :=
      List.mem_filterMap.mpr ⟨m2, hs, h2⟩
    have hr2 : r ∈ List.filterMap Message.receipt_handle (m :: t) := by
      rw [hcons]; exact List.mem_cons_self _ _
    exact (List.nodup_append.mp hnd).2.2 hr1 hr2
  · rcases List.mem_cons.mp ht with rfl | ht2
    · exact hne rfl
    · have hnd2 := (List.nodup_append.mp hnd).2.1
      rw [hcons] at hnd2
      have hmem : r ∈ List.filterMap Message.receipt_handle t :=
        List.mem_filterMap.mpr ⟨m2, ht2, h2⟩
      exact (List.nodup_cons.mp hnd2).1 hmem

/-- C2: in a batch whose receipt handles are distinct, a message is acked
(its receipt appears among the deleted handles) only when its processing
returned Ok: its body was absent, it was a recognized non-trigger, it
matched no service, or its credential fetch and its service update both
succeeded; and a message whose credential fetch fails or whose update
fails is never acked. -/
theorem c2_ack_only_after_success (messages : List Message)
    (cat : List (String × Service)) (env : Env)
    (hnd : (messages.filterMap Message.receipt_handle).Nodup)
    (m : Message) (hm : m ∈ messages) (r : String)
    (hrec : m.receipt_handle = some r) :
    (r ∈ (run_batch messages cat env).1 →
      m.body = none ∨
      (∃ raw, m.body = some raw ∧ parse_ecr_event raw = Except.ok none) ∨
      (∃ raw event, m.body = some raw ∧
        parse_ecr_event raw = Except.ok (some event) ∧
        List.lookup event.image cat = none) ∨
      (∃ raw event service, m.body = some raw ∧
        parse_ecr_event raw = Except.ok (some event) ∧
        List.lookup event.image cat = some service ∧
        env.regionKnown event.region = true ∧
        (∃ creds, env.auth event.account_id = Except.ok creds) ∧
        env.applyOk service.id = true)) ∧
    ((∃ raw event service, m.body = some raw ∧
        parse_ecr_event raw = Except.ok (some event) ∧
        List.lookup event.image cat = some service ∧
        (env.auth event.account_id = Except.error () ∨
         env.applyOk service.id = false)) →
      r ∉ (run_batch messages cat env).1) := by
  constructor
  · intro hr
    obtain ⟨m2, hm2, hrec2, hok2⟩ := run_batch_deleted_mem messages cat env r hr
    have heq : m = m2 := receipt_unique messages hnd hm hm2 hrec hrec2
    rw [← heq] at hok2
    exact process_one_ok_cases m cat env hok2
  · rintro ⟨raw, event, service, hb, hp, hl, hfail⟩ hr
    obtain ⟨m2, hm2, hrec2, hok2⟩ := run_batch_deleted_mem messages cat env r hr
    have heq : m = m2 := receipt_unique messages hnd hm hm2 hrec hrec2
    rw [← heq] at hok2
    simp only [process_one, hb, hp, hl] at hok2
    cases hreg : env.regionKnown event.region with
    | false => simp [hreg] at hok2
    | true =>
      rcases hfail with ha | happ
      · simp [hreg, ha] at hok2
      · cases ha2 : env.auth event.account_id with
        | error u => simp [hreg, ha2] at hok2
        | ok creds => simp [hreg, ha2, happ] at hok2

/-- C2 witness: a matched push-event message whose credential fetch fails
is left un-acked. -/
theorem c2_ack_only_after_success_witness :
    "r1" ∉ (run_batch [⟨some (some push_event_json), some "r1"⟩]
      [(push_event.image, matched_service)] env_auth_fails).1 :=
  (c2_ack_only_after_success [⟨some (some push_event_json), some "r1"⟩]
    [(push_event.image, matched_service)] env_auth_fails
    (by simp) ⟨some (some push_event_json), some "r1"⟩
    (List.mem_cons_self _ _) "r1" rfl).2
    ⟨some push_event_json, push_event, matched_service, rfl, rfl, rfl,
     Or.inl rfl⟩

/-- C10: a message with no body is processed without issuing a credential
fetch or a service update, completes successfully, and is then acked like
a recognized non-trigger (shown on a singleton batch whose delete call
succeeds). -/
theorem c10_empty_body (message : Message) (cat : List (String × Service))
    (env : Env) (hb : message.body = none) :
    process_one message cat env = ([], Except.ok ()) ∧
    (∀ r, message.receipt_handle = some r → env.deleteOk r = true →
      run_batch [message] cat env = ([r], none)) := by
  have h1 : process_one message cat env = ([], Except.ok ()) := by
    simp only [process_one, hb]
  refine ⟨h1, ?_⟩
  intro r hr hd
  simp only [run_batch, h1, hr, hd, if_true]

/-- C10 witness: a concrete body-less message is acked with no external
calls issued. -/
theorem c10_empty_body_witness :
    process_one ⟨none, some "r0"⟩ [] env_all_ok = ([], Except.ok ()) ∧
    run_batch [⟨none, some "r0"⟩] [] env_all_ok = (["r0"], none) :=
  ⟨(c10_empty_body ⟨none, some "r0"⟩ [] env_all_ok rfl).1,
   (c10_empty_body ⟨none, some "r0"⟩ [] env_all_ok rfl).2 "r0" rfl rfl⟩
